import Mathlib

/-!
Verification of the note-parsing core of mcky/libobsidian
(src/obsidian_note.rs).

Text is modelled as a list of characters. The external structured-data
parser (serde_yaml) is excluded from the repository, so deserialization
is a parameter of the parse pipeline: a function from the raw block text
to either an error or a generic structured value.
-/

/-- Modelled from the spec: the generic structured value produced by the
external structured-data parser (serde_yaml::Value in the source), a
tagged union with null, scalar, sequence and mapping variants. Only the
null variant is inspected by the code under verification. -/
inductive Yaml where
  | null : Yaml
  | scalar : List Char → Yaml
  | seq : List Yaml → Yaml
  | map : List (List Char × Yaml) → Yaml

/-- Source: pub type Properties = serde_yaml::Value. -/
abbrev Properties := Yaml

/-- Models the comparison fm == serde_yaml::Value::Null from the source,
which holds exactly when the value is the null variant. -/
def Yaml.isNull : Yaml → Bool
  | Yaml.null => true
  | _ => false

/-- Source: struct ObsidianNote, fields in declaration order.
The path type is opaque to the core, so it is a parameter. -/
structure ObsidianNote (P : Type) where
  file_path : P
  file_contents : List Char
  file_body : List Char
  properties : Option Properties

/-- Source: let delimiter = "---". -/
def delimiter : List Char := ['-', '-', '-']

/-- Leftmost split of a list at the first occurrence of the delimiter
substring: the semantics of one step of str::splitn with the fixed
non-empty needle "---". Returns the part before the match and the
remainder after the match, or none when the delimiter does not occur. -/
def splitOnce : List Char → Option (List Char × List Char)
  | [] => none
  | c :: rest =>
      match delimiter.isPrefixOf (c :: rest) with
      | true => some ([], List.drop delimiter.length (c :: rest))
      | false =>
          match splitOnce rest with
          | some (pre, post) => some (c :: pre, post)
          | none => none

/-- Source: content.splitn(3, delimiter) — at most three parts, cut at
the first two occurrences of the delimiter; the third part keeps any
later occurrences intact. -/
def splitn3 (content : List Char) : List (List Char) :=
  match splitOnce content with
  | none => [content]
  | some (p1, rest) =>
      match splitOnce rest with
      | none => [p1, rest]
      | some (p2, rest2) => [p1, p2, rest2]

/-- Models str::trim_start: drop leading whitespace. -/
def trimStart (s : List Char) : List Char := s.dropWhile Char.isWhitespace

/-- Models str::trim_end: drop trailing whitespace. -/
def trimEnd (s : List Char) : List Char :=
  (s.reverse.dropWhile Char.isWhitespace).reverse

/-- Models str::trim: drop leading and trailing whitespace. -/
def trim (s : List Char) : List Char := trimEnd (trimStart s)

/-- Source: fn extract_frontmatter(content: &str)
  -> (Option<String>, Option<String>). -/
def extract_frontmatter (content : List Char) :
    Option (List Char) × Option (List Char) :=
  match splitn3 content with
  | [[], frontmatter, body] => (some (trim frontmatter), some (trim body))
  | [[], frontmatter] => (some (trim frontmatter), none)
  | _ => (none, some (trim content))

/-- Models Option::transpose on Option<Result<A, E>>. -/
def optionTranspose {E A : Type} : Option (Except E A) → Except E (Option A)
  | none => Except.ok none
  | some (Except.ok a) => Except.ok (some a)
  | some (Except.error e) => Except.error e

/-- Source: ObsidianNote::parse. The deserializer (serde_yaml::from_str)
is external, hence a parameter. -/
def ObsidianNote.parse {P E : Type} (deser : List Char → Except E Yaml)
    (file_path : P) (file_contents : List Char) : Except E (ObsidianNote P) :=
  let pr := extract_frontmatter file_contents
  match optionTranspose (Option.map deser pr.1) with
  | Except.error e => Except.error e
  | Except.ok fmOpt =>
      let frontmatter :=
        Option.bind fmOpt (fun fm => if fm.isNull = true then none else some fm)
      Except.ok (ObsidianNote.mk file_path file_contents
        ((pr.2).getD []) frontmatter)

/-- Source: ObsidianNote::read_from_path. The storage read
(fs::read_to_string) is external, hence a parameter; both the read and
the parse propagate their errors with the question-mark operator into
the same single error type (anyhow::Result in the source). -/
def ObsidianNote.read_from_path {P E : Type}
    (fs_read : P → Except E (List Char)) (deser : List Char → Except E Yaml)
    (file_path : P) : Except E (ObsidianNote P) :=
  match fs_read file_path with
  | Except.error e => Except.error e
  | Except.ok file_contents =>
      match ObsidianNote.parse deser file_path file_contents with
      | Except.error e => Except.error e
      | Except.ok note => Except.ok note

/-- Number of non-overlapping, leftmost-first occurrences of the
three-character marker in a text — the counting the claims speak of. -/
def countMarker : List Char → Nat
  | c :: d :: e :: rest =>
      if c = '-' ∧ d = '-' ∧ e = '-' then countMarker rest + 1
      else countMarker (d :: e :: rest)
  | _ => 0

/-- Models anyhow::Error: a type-erased box whose only uniform,
downcast-free observation is its rendered message. Both the storage
read error and the deserialization error are converted into this one
type by the question-mark operator in the source. -/
structure AnyhowError where
  msg : List Char
deriving DecidableEq

/-- A concrete sample deserializer for witnesses, mirroring serde_yaml
on the tiny inputs used here: a blank document parses to null, any other
document parses to a non-null (scalar) value. -/
def testDeser (s : List Char) : Except Unit Yaml :=
  if trim s = [] then Except.ok Yaml.null else Except.ok (Yaml.scalar s)

/-- A sample deserializer that maps every block to null. -/
def constNullDeser : List Char → Except Unit Yaml :=
  fun _ => Except.ok Yaml.null

/-- A sample storage read that fails with a fixed message. -/
def fsFail : Unit → Except AnyhowError (List Char) :=
  fun _ => Except.error (AnyhowError.mk ['b', 'o', 'o', 'm'])

/-- A sample storage read that returns the given contents. -/
def fsOk (contents : List Char) : Unit → Except AnyhowError (List Char) :=
  fun _ => Except.ok contents

/-- A sample deserializer that fails with the same rendered message as
the sample failing storage read. -/
def deserBoom : List Char → Except AnyhowError Yaml :=
  fun _ => Except.error (AnyhowError.mk ['b', 'o', 'o', 'm'])

/-- A sample deserializer (anyhow-typed) that always succeeds. -/
def deserNull : List Char → Except AnyhowError Yaml :=
  fun _ => Except.ok Yaml.null

/-! ### Whitespace and trimming lemmas -/

theorem ws_ne_dash {c : Char} (h : c.isWhitespace = true) : c ≠ '-' := by
  intro hc
  subst hc
  exact absurd h (by decide)

theorem dropWhile_dropWhile_eq {α : Type} (p : α → Bool) :
    ∀ l : List α, List.dropWhile p (List.dropWhile p l) = List.dropWhile p l
  | [] => rfl
  | c :: cs => by
      by_cases h : p c
      · rw [List.dropWhile_cons_of_pos h]
        exact dropWhile_dropWhile_eq p cs
      · rw [List.dropWhile_cons_of_neg h, List.dropWhile_cons_of_neg h]

theorem trimEnd_trimEnd (s : List Char) : trimEnd (trimEnd s) = trimEnd s := by
  simp only [trimEnd, List.reverse_reverse]
  rw [dropWhile_dropWhile_eq]

theorem trimEnd_decomp (s : List Char) :
    ∃ w, s = trimEnd s ++ w ∧ ∀ c ∈ w, c.isWhitespace = true := by
  refine ⟨(s.reverse.takeWhile Char.isWhitespace).reverse, ?_, ?_⟩
  · calc s = s.reverse.reverse := (List.reverse_reverse s).symm
      _ = (List.takeWhile Char.isWhitespace s.reverse
            ++ List.dropWhile Char.isWhitespace s.reverse).reverse := by
            rw [List.takeWhile_append_dropWhile]
      _ = (List.dropWhile Char.isWhitespace s.reverse).reverse
            ++ (List.takeWhile Char.isWhitespace s.reverse).reverse := by
            rw [List.reverse_append]
      _ = trimEnd s ++ (List.takeWhile Char.isWhitespace s.reverse).reverse := rfl
  · intro c hc
    rw [List.mem_reverse] at hc
    exact List.mem_takeWhile_imp hc

theorem trimStart_cons_not_ws :
    ∀ (s : List Char) (c : Char) (ts : List Char),
      trimStart s = c :: ts → Char.isWhitespace c = false
  | [], c, ts, h => by simp [trimStart] at h
  | a :: as, c, ts, h => by
      simp only [trimStart] at h
      by_cases hp : Char.isWhitespace a
      · rw [List.dropWhile_cons_of_pos hp] at h
        exact trimStart_cons_not_ws as c ts h
      · rw [List.dropWhile_cons_of_neg hp] at h
        injection h with h1 h2
        subst h1
        simpa using hp

theorem trim_trim (s : List Char) : trim (trim s) = trim s := by
  have h1 : trimStart (trim s) = trim s := by
    cases ht : trim s with
    | nil => simp [trimStart]
    | cons c ts =>
        obtain ⟨w, hw, -⟩ := trimEnd_decomp (trimStart s)
        have htE : trimEnd (trimStart s) = c :: ts := ht
        rw [htE] at hw
        have hc : Char.isWhitespace c = false :=
          trimStart_cons_not_ws s c (ts ++ w) (by rw [hw]; simp)
        have hnws : ¬ Char.isWhitespace c = true := by simp [hc]
        show trimStart (c :: ts) = c :: ts
        simp [trimStart, List.dropWhile_cons_of_neg hnws]
  calc trim (trim s) = trimEnd (trimStart (trim s)) := rfl
    _ = trimEnd (trim s) := by rw [h1]
    _ = trimEnd (trimEnd (trimStart s)) := rfl
    _ = trimEnd (trimStart s) := trimEnd_trimEnd _
    _ = trim s := rfl

/-! ### Marker-counting lemmas -/

theorem countMarker_cons_of_ne {c : Char} (h : c ≠ '-') :
    ∀ cs : List Char, countMarker (c :: cs) = countMarker cs
  | [] => by simp [countMarker]
  | [d] => by simp [countMarker]
  | d :: e :: rest => by
      simp only [countMarker]
      rw [if_neg (by simp [h])]

theorem countMarker_nil_of_ws :
    ∀ w : List Char, (∀ c ∈ w, c.isWhitespace = true) → countMarker w = 0
  | [], _ => rfl
  | c :: cs, h => by
      rw [countMarker_cons_of_ne (ws_ne_dash (h c (by simp))) cs]
      exact countMarker_nil_of_ws cs (fun x hx => h x (by simp [hx]))

theorem countMarker_one_ws (a : Char) (w : List Char)
    (h : ∀ c ∈ w, c.isWhitespace = true) : countMarker (a :: w) = 0 := by
  cases w with
  | nil => simp [countMarker]
  | cons b w2 =>
      cases w2 with
      | nil => simp [countMarker]
      | cons c rest =>
          have hb : b ≠ '-' := ws_ne_dash (h b (by simp))
          simp only [countMarker]
          rw [if_neg (by simp [hb])]
          exact countMarker_nil_of_ws _ h

theorem countMarker_two_ws (a b : Char) (w : List Char)
    (h : ∀ c ∈ w, c.isWhitespace = true) : countMarker (a :: b :: w) = 0 := by
  cases w with
  | nil => simp [countMarker]
  | cons c rest =>
      have hc : c ≠ '-' := ws_ne_dash (h c (by simp))
      simp only [countMarker]
      rw [if_neg (by simp [hc])]
      exact countMarker_one_ws b (c :: rest) h

theorem countMarker_append_ws (w : List Char)
    (hw : ∀ c ∈ w, c.isWhitespace = true) :
    ∀ t : List Char, countMarker (t ++ w) = countMarker t
  | [] => by simpa using countMarker_nil_of_ws w hw
  | [a] => by
      simp only [List.cons_append, List.nil_append]
      rw [countMarker_one_ws a w hw]
      simp [countMarker]
  | [a, b] => by
      simp only [List.cons_append, List.nil_append]
      rw [countMarker_two_ws a b w hw]
      simp [countMarker]
  | a :: b :: c :: rest => by
      simp only [List.cons_append]
      simp only [countMarker]
      by_cases habc : a = '-' ∧ b = '-' ∧ c = '-'
      · rw [if_pos habc, if_pos habc, countMarker_append_ws w hw rest]
      · rw [if_neg habc, if_neg habc]
        have h2 := countMarker_append_ws w hw (b :: c :: rest)
        simpa using h2

theorem countMarker_trimEnd (t : List Char) :
    countMarker (trimEnd t) = countMarker t := by
  obtain ⟨w, hw, hws⟩ := trimEnd_decomp t
  conv_rhs => rw [hw]
  rw [countMarker_append_ws w hws (trimEnd t)]

theorem countMarker_trimStart :
    ∀ t : List Char, countMarker (trimStart t) = countMarker t
  | [] => rfl
  | c :: cs => by
      by_cases hp : Char.isWhitespace c
      · rw [show trimStart (c :: cs) = trimStart cs from by
            simp [trimStart, List.dropWhile_cons_of_pos hp]]
        rw [countMarker_trimStart cs, countMarker_cons_of_ne (ws_ne_dash hp) cs]
      · simp [trimStart, List.dropWhile_cons_of_neg hp]

theorem countMarker_trim (t : List Char) :
    countMarker (trim t) = countMarker t := by
  show countMarker (trimEnd (trimStart t)) = countMarker t
  rw [countMarker_trimEnd (trimStart t), countMarker_trimStart t]

/-! ### Splitter lemmas -/

theorem splitOnce_of_marker_start (T : List Char)
    (h : delimiter.isPrefixOf T = true) :
    splitOnce T = some ([], List.drop delimiter.length T) := by
  cases T with
  | nil => exact absurd h (by decide)
  | cons c rest => simp [splitOnce, h]

theorem marker_start_of_splitOnce (T pre rest : List Char)
    (h : splitOnce T = some (pre, rest)) (hpre : pre = []) :
    delimiter.isPrefixOf T = true := by
  subst hpre
  cases T with
  | nil => simp [splitOnce] at h
  | cons c cs =>
      by_cases hp : delimiter.isPrefixOf (c :: cs) = true
      · exact hp
      · rw [Bool.not_eq_true] at hp
        simp only [splitOnce, hp] at h
        cases hso : splitOnce cs with
        | none => rw [hso] at h; simp at h
        | some pr =>
            obtain ⟨p, q⟩ := pr
            rw [hso] at h
            simp at h

theorem splitOnce_marker_append (R : List Char) : ∀ B : List Char,
    (∀ i, i < B.length →
      delimiter.isPrefixOf ((B ++ (delimiter ++ R)).drop i) = false) →
    splitOnce (B ++ (delimiter ++ R)) = some (B, R)
  | [], _ => by
      rw [List.nil_append,
        splitOnce_of_marker_start (delimiter ++ R)
          (by simp [delimiter, List.isPrefixOf])]
      simp [delimiter]
  | c :: B2, hB => by
      have h0 : delimiter.isPrefixOf (c :: (B2 ++ (delimiter ++ R))) = false := by
        have h := hB 0 (by simp)
        simpa using h
      have IH := splitOnce_marker_append R B2 (fun i hi => by
        have h := hB (i + 1) (by simpa [List.length_cons] using Nat.succ_lt_succ hi)
        simpa using h)
      rw [List.cons_append]
      simp [splitOnce, h0, IH]

theorem splitn3_header (B R : List Char)
    (hB : ∀ i, i < B.length →
      delimiter.isPrefixOf ((B ++ (delimiter ++ R)).drop i) = false) :
    splitn3 (delimiter ++ (B ++ (delimiter ++ R))) = [[], B, R] := by
  have h1 : splitOnce (delimiter ++ (B ++ (delimiter ++ R)))
      = some ([], B ++ (delimiter ++ R)) := by
    rw [splitOnce_of_marker_start _ (by simp [delimiter, List.isPrefixOf])]
    simp [delimiter]
  have h2 := splitOnce_marker_append R B hB
  simp [splitn3, h1, h2]

theorem extract_frontmatter_header (B R : List Char)
    (hB : ∀ i, i < B.length →
      delimiter.isPrefixOf ((B ++ (delimiter ++ R)).drop i) = false) :
    extract_frontmatter (delimiter ++ (B ++ (delimiter ++ R)))
      = (some (trim B), some (trim R)) := by
  simp [extract_frontmatter, splitn3_header B R hB]

theorem extract_frontmatter_not_marker_start (T : List Char)
    (h : delimiter.isPrefixOf T = false) :
    extract_frontmatter T = (none, some (trim T)) := by
  cases hso : splitOnce T with
  | none => simp [extract_frontmatter, splitn3, hso]
  | some pr =>
      obtain ⟨pre, rest⟩ := pr
      have hpre : pre ≠ [] := by
        intro hp
        have hm := marker_start_of_splitOnce T pre rest hso hp
        rw [hm] at h
        exact Bool.noConfusion h
      obtain ⟨c, pre2, rfl⟩ : ∃ c pre2, pre = c :: pre2 := by
        cases pre with
        | nil => exact absurd rfl hpre
        | cons c p2 => exact ⟨c, p2, rfl⟩
      cases hso2 : splitOnce rest with
      | none => simp [extract_frontmatter, splitn3, hso, hso2]
      | some pr2 =>
          obtain ⟨p2, q2⟩ := pr2
          simp [extract_frontmatter, splitn3, hso, hso2]

theorem parse_not_marker_start {P E : Type} (deser : List Char → Except E Yaml)
    (p : P) (T : List Char) (h : delimiter.isPrefixOf T = false) :
    ObsidianNote.parse deser p T
      = Except.ok (ObsidianNote.mk p T (trim T) none) := by
  have hx := extract_frontmatter_not_marker_start T h
  simp [ObsidianNote.parse, hx, optionTranspose]

/-! ### Parse pipeline lemmas -/

theorem parse_ok_iff {P E : Type} (deser : List Char → Except E Yaml)
    (p : P) (T : List Char) (n : ObsidianNote P) :
    ObsidianNote.parse deser p T = Except.ok n ↔
    ∃ fmOpt,
      optionTranspose (Option.map deser (extract_frontmatter T).1)
        = Except.ok fmOpt ∧
      n = ObsidianNote.mk p T (((extract_frontmatter T).2).getD [])
            (Option.bind fmOpt
              (fun fm => if fm.isNull = true then none else some fm)) := by
  cases hx : optionTranspose (Option.map deser (extract_frontmatter T).1) with
  | error e => simp [ObsidianNote.parse, hx]
  | ok fmOpt =>
      simp only [ObsidianNote.parse, hx, Except.ok.injEq]
      constructor
      · intro h
        exact ⟨fmOpt, rfl, h.symm⟩
      · rintro ⟨f2, hf2, rfl⟩
        rw [hf2]

theorem parse_error_transpose {P E : Type} (deser : List Char → Except E Yaml)
    (p : P) (T : List Char) (e : E) :
    ObsidianNote.parse deser p T = Except.error e ↔
    optionTranspose (Option.map deser (extract_frontmatter T).1)
      = Except.error e := by
  cases hx : optionTranspose (Option.map deser (extract_frontmatter T).1) with
  | error e2 => simp [ObsidianNote.parse, hx]
  | ok f => simp [ObsidianNote.parse, hx]

theorem optionTranspose_map_error {E : Type} (deser : List Char → Except E Yaml)
    (o : Option (List Char)) (e : E) :
    optionTranspose (Option.map deser o) = Except.error e ↔
    ∃ fm, o = some fm ∧ deser fm = Except.error e := by
  cases o with
  | none => simp [optionTranspose]
  | some fm =>
      cases hd : deser fm with
      | error e2 => simp [optionTranspose, hd]
      | ok v => simp [optionTranspose, hd]

theorem extract_frontmatter_shapes (T : List Char) :
    (∃ fm bd, extract_frontmatter T = (some (trim fm), some (trim bd))) ∨
    (∃ fm, extract_frontmatter T = (some (trim fm), none)) ∨
    extract_frontmatter T = (none, some (trim T)) := by
  cases hso : splitOnce T with
  | none => right; right; simp [extract_frontmatter, splitn3, hso]
  | some pr =>
      obtain ⟨pre, rest⟩ := pr
      cases pre with
      | nil =>
          cases hso2 : splitOnce rest with
          | none =>
              right; left
              exact ⟨rest, by simp [extract_frontmatter, splitn3, hso, hso2]⟩
          | some pr2 =>
              obtain ⟨p2, q2⟩ := pr2
              left
              exact ⟨p2, q2, by simp [extract_frontmatter, splitn3, hso, hso2]⟩
      | cons c pre2 =>
          cases hso2 : splitOnce rest with
          | none => right; right; simp [extract_frontmatter, splitn3, hso, hso2]
          | some pr2 =>
              obtain ⟨p2, q2⟩ := pr2
              right; right
              simp [extract_frontmatter, splitn3, hso, hso2]

theorem parse_contents_eq {P E : Type} (deser : List Char → Except E Yaml)
    (p : P) (T : List Char) (n : ObsidianNote P)
    (h : ObsidianNote.parse deser p T = Except.ok n) : n.file_contents = T := by
  rw [parse_ok_iff] at h
  obtain ⟨f, hf, rfl⟩ := h
  rfl

/-! ### Claim theorems -/

/-- C1, counterexample: the claim fails as stated. The four-character
text marker-then-letter-a contains exactly one occurrence of the
three-character marker, yet parse does treat it as a metadata header:
with a deserializer behaving like serde_yaml on this block (the letter a
parses to a non-null scalar), parse succeeds with properties equal to
some scalar — not none — and with body the empty string rather than the
trimmed original text. -/
theorem parse_single_marker_counterexample :
    countMarker ['-', '-', '-', 'a'] = 1 ∧
    ¬ (∀ n : ObsidianNote Unit,
        ObsidianNote.parse testDeser () ['-', '-', '-', 'a'] = Except.ok n →
        n.properties = none ∧ n.file_body = trim ['-', '-', '-', 'a']) := by
  constructor
  · decide
  · intro hcl
    have h := hcl (ObsidianNote.mk () ['-', '-', '-', 'a'] []
        (some (Yaml.scalar ['a']))) rfl
    exact Option.noConfusion h.1

/-- C1, amended: for every input text containing zero or one occurrence
of the three-character marker, provided the text does not begin with the
marker, parse succeeds for every deserializer with properties none and
body the whitespace-trimmed text. (The amendment adds the proviso that
the text does not begin with the marker: the counterexample shows that a
text whose single marker occurrence is at position zero is treated as a
metadata header.) -/
theorem parse_le_one_marker {P E : Type} (deser : List Char → Except E Yaml)
    (p : P) (T : List Char) (h1 : countMarker T ≤ 1)
    (h2 : delimiter.isPrefixOf T = false) :
    ObsidianNote.parse deser p T
      = Except.ok (ObsidianNote.mk p T (trim T) none) :=
  parse_not_marker_start deser p T h2

/-- C1, witness: the amended theorem applied to a concrete two-letter
text with no marker occurrence. -/
theorem parse_le_one_marker_witness :
    ObsidianNote.parse testDeser () ['h', 'i']
      = Except.ok (ObsidianNote.mk () ['h', 'i'] ['h', 'i'] none) :=
  parse_le_one_marker testDeser () ['h', 'i'] (by decide) (by decide)

/-- C2: for every text of the shape marker, block, marker, rest — with
the block delimited by the genuine first two marker occurrences, that
is, no earlier occurrence of the marker before the second cut — and
every deserializer mapping the trimmed block to a non-null value v,
parse succeeds with properties some v and body the trimmed rest. -/
theorem parse_header_extraction {P E : Type}
    (deser : List Char → Except E Yaml) (p : P) (B R : List Char) (v : Yaml)
    (hB : ∀ i, i < B.length →
      delimiter.isPrefixOf ((B ++ (delimiter ++ R)).drop i) = false)
    (hd : deser (trim B) = Except.ok v) (hv : v.isNull = false) :
    ObsidianNote.parse deser p (delimiter ++ (B ++ (delimiter ++ R)))
      = Except.ok (ObsidianNote.mk p (delimiter ++ (B ++ (delimiter ++ R)))
          (trim R) (some v)) := by
  have hx := extract_frontmatter_header B R hB
  simp [ObsidianNote.parse, hx, optionTranspose, hd, hv]

/-- C2, witness: the theorem applied to the concrete text made of the
marker, the letter a, the marker, and the letter b. -/
theorem parse_header_extraction_witness :
    ObsidianNote.parse testDeser () (delimiter ++ (['a'] ++ (delimiter ++ ['b'])))
      = Except.ok (ObsidianNote.mk ()
          (delimiter ++ (['a'] ++ (delimiter ++ ['b']))) ['b']
          (some (Yaml.scalar ['a']))) :=
  parse_header_extraction testDeser () ['a'] ['b'] (Yaml.scalar ['a'])
    (by decide) rfl rfl

/-- C3: for every input text containing at least one marker occurrence
but not beginning with the marker (so the first occurrence is not at
position zero), parse never extracts metadata: it succeeds for every
deserializer with properties none and body the whole trimmed text. -/
theorem parse_marker_not_at_start {P E : Type}
    (deser : List Char → Except E Yaml) (p : P) (T : List Char)
    (h1 : countMarker T ≠ 0) (h2 : delimiter.isPrefixOf T = false) :
    ObsidianNote.parse deser p T
      = Except.ok (ObsidianNote.mk p T (trim T) none) :=
  parse_not_marker_start deser p T h2

/-- C3, witness: the theorem applied to a concrete text whose single
marker occurrence sits after a leading letter. -/
theorem parse_marker_not_at_start_witness :
    ObsidianNote.parse testDeser () ['x', '-', '-', '-']
      = Except.ok (ObsidianNote.mk () ['x', '-', '-', '-']
          ['x', '-', '-', '-'] none) :=
  parse_marker_not_at_start testDeser () ['x', '-', '-', '-']
    (by decide) (by decide)

/-- C4: splitting is bounded to the first two marker occurrences. For
every text of the shape marker, block, marker, rest whose rest contains
at least one further marker occurrence (so the whole text has at least
three), the splitter returns the trimmed rest as the body segment, and
every marker occurrence of the rest survives in the returned body:
trimming only strips whitespace, so the occurrence count is unchanged. -/
theorem extract_frontmatter_bounded (B R : List Char)
    (hB : ∀ i, i < B.length →
      delimiter.isPrefixOf ((B ++ (delimiter ++ R)).drop i) = false)
    (hR : 1 ≤ countMarker R) :
    extract_frontmatter (delimiter ++ (B ++ (delimiter ++ R)))
      = (some (trim B), some (trim R))
    ∧ countMarker (trim R) = countMarker R :=
  ⟨extract_frontmatter_header B R hB, countMarker_trim R⟩

/-- C4, witness: the theorem applied to a concrete text with three
marker occurrences; the third stays inside the body segment. -/
theorem extract_frontmatter_bounded_witness :
    extract_frontmatter
        (delimiter ++ (['a'] ++ (delimiter ++ ['-', '-', '-', 'c'])))
      = (some ['a'], some ['-', '-', '-', 'c'])
    ∧ countMarker (trim ['-', '-', '-', 'c'])
        = countMarker ['-', '-', '-', 'c'] :=
  extract_frontmatter_bounded ['a'] ['-', '-', '-', 'c']
    (by decide) (by decide)

/-- C5: null normalization. For every successful parse the properties
field is never some null; and whenever the splitter detects a metadata
block whose deserialization is the null value, the properties field of
the parsed note is none. -/
theorem parse_null_normalization {P E : Type} (deser : List Char → Except E Yaml)
    (p : P) (T : List Char) (n : ObsidianNote P)
    (h : ObsidianNote.parse deser p T = Except.ok n) :
    n.properties ≠ some Yaml.null ∧
    (∀ fm b, extract_frontmatter T = (some fm, b) →
      deser fm = Except.ok Yaml.null → n.properties = none) := by
  rw [parse_ok_iff] at h
  obtain ⟨fmOpt, hf, rfl⟩ := h
  constructor
  · show Option.bind fmOpt
        (fun fm => if fm.isNull = true then none else some fm) ≠ some Yaml.null
    cases fmOpt with
    | none => simp
    | some v =>
        by_cases hv : v.isNull = true
        · simp [hv]
        · simp only [Option.some_bind, if_neg hv]
          intro heq
          injection heq with h2
          subst h2
          exact hv rfl
  · intro fm b hx hd
    show Option.bind fmOpt
        (fun fm => if fm.isNull = true then none else some fm) = none
    rw [hx] at hf
    simp only [hd, optionTranspose, Option.map_some', Except.ok.injEq] at hf
    subst hf
    simp [Yaml.isNull]

/-- C5, witness: the theorem applied to a concrete text made of two
adjacent markers followed by a letter; the empty block deserializes to
null, and the parsed note indeed carries no properties. -/
theorem parse_null_normalization_witness :
    (ObsidianNote.mk () ['-', '-', '-', '-', '-', '-', 'x'] ['x']
        (none : Option Properties)).properties = none :=
  (parse_null_normalization testDeser () ['-', '-', '-', '-', '-', '-', 'x']
      (ObsidianNote.mk () ['-', '-', '-', '-', '-', '-', 'x'] ['x'] none)
      rfl).2 [] (some ['x']) rfl rfl

/-- C6: for every note returned by a successful parse, the body field is
a fixed point of trimming (it carries no leading or trailing
whitespace), it is the empty string exactly when the splitter produced
no body segment, and otherwise it equals the segment the splitter
produced. -/
theorem parse_body_trimmed {P E : Type} (deser : List Char → Except E Yaml)
    (p : P) (T : List Char) (n : ObsidianNote P)
    (h : ObsidianNote.parse deser p T = Except.ok n) :
    n.file_body = trim n.file_body ∧
    ((extract_frontmatter T).2 = none → n.file_body = []) ∧
    (∀ b, (extract_frontmatter T).2 = some b → n.file_body = b) := by
  rw [parse_ok_iff] at h
  obtain ⟨fmOpt, hf, rfl⟩ := h
  refine ⟨?_, ?_, ?_⟩
  · show ((extract_frontmatter T).2).getD []
        = trim (((extract_frontmatter T).2).getD [])
    rcases extract_frontmatter_shapes T with ⟨fm, bd, hx⟩ | ⟨fm, hx⟩ | hx
    · rw [hx]
      show trim bd = trim (trim bd)
      exact (trim_trim bd).symm
    · rw [hx]
      show ([] : List Char) = trim []
      rfl
    · rw [hx]
      show trim T = trim (trim T)
      exact (trim_trim T).symm
  · intro hb
    show ((extract_frontmatter T).2).getD [] = []
    rw [hb]
    rfl
  · intro b hb
    show ((extract_frontmatter T).2).getD [] = b
    rw [hb]
    rfl

/-- C6, witness: the body invariants evaluated on a concrete two-letter
text with no metadata block. -/
theorem parse_body_trimmed_witness :
    (['h', 'i'] : List Char) = trim ['h', 'i'] :=
  (parse_body_trimmed testDeser () ['h', 'i']
      (ObsidianNote.mk () ['h', 'i'] ['h', 'i'] none) rfl).1

/-- C7: parse fails exactly when a metadata block was detected and its
deserialization fails, with the very error the deserializer produced;
and when no metadata block is detected, the result does not depend on
the deserializer at all (it is never invoked) and the parse succeeds. -/
theorem parse_error_iff_deser_error {P E : Type}
    (deser d1 d2 : List Char → Except E Yaml) (p : P) (T : List Char) :
    (∀ e, ObsidianNote.parse deser p T = Except.error e ↔
      ∃ fm, (extract_frontmatter T).1 = some fm ∧ deser fm = Except.error e) ∧
    ((extract_frontmatter T).1 = none →
      ObsidianNote.parse d1 p T = ObsidianNote.parse d2 p T ∧
      ∃ n, ObsidianNote.parse d1 p T = Except.ok n) := by
  constructor
  · intro e
    rw [parse_error_transpose]
    exact optionTranspose_map_error deser (extract_frontmatter T).1 e
  · intro hnone
    constructor
    · simp [ObsidianNote.parse, hnone, optionTranspose]
    · exact ⟨ObsidianNote.mk p T (((extract_frontmatter T).2).getD []) none,
        by simp [ObsidianNote.parse, hnone, optionTranspose]⟩

/-- C7, witness: on a concrete text with no marker, two different
deserializers give the same successful result. -/
theorem parse_error_iff_deser_error_witness :
    ObsidianNote.parse testDeser () ['h', 'e', 'y']
      = ObsidianNote.parse constNullDeser () ['h', 'e', 'y'] ∧
    ∃ n, ObsidianNote.parse testDeser () ['h', 'e', 'y'] = Except.ok n :=
  (parse_error_iff_deser_error testDeser testDeser constNullDeser ()
      ['h', 'e', 'y']).2 rfl

/-- C8, counterexample: the errors of read_from_path carry no tagged
kind. A storage read failure and a metadata deserialization failure with
the same rendered message produce identical error values of the single
untagged error type, so no caller can branch on the kind from the error
value: the claimed two explicit tagged kinds do not exist in the code. -/
theorem read_error_kinds_counterexample :
    ObsidianNote.read_from_path fsFail deserNull ()
      = Except.error (AnyhowError.mk ['b', 'o', 'o', 'm']) ∧
    ObsidianNote.read_from_path (fsOk ['-', '-', '-', 'a']) deserBoom ()
      = Except.error (AnyhowError.mk ['b', 'o', 'o', 'm']) :=
  ⟨rfl, rfl⟩

/-- C8, amended: read_from_path surfaces both failure kinds by
propagating them unrecovered into one shared untagged error type: a
storage read failure is returned unchanged, and a parse (metadata
deserialization) failure is returned unchanged, with no added tag
distinguishing the two. -/
theorem read_from_path_error_propagation {P E : Type}
    (fs_read : P → Except E (List Char)) (deser : List Char → Except E Yaml)
    (p : P) :
    (∀ e, fs_read p = Except.error e →
      ObsidianNote.read_from_path fs_read deser p = Except.error e) ∧
    (∀ T e, fs_read p = Except.ok T →
      ObsidianNote.parse deser p T = Except.error e →
      ObsidianNote.read_from_path fs_read deser p = Except.error e) := by
  constructor
  · intro e he
    simp [ObsidianNote.read_from_path, he]
  · intro T e hT hp
    simp [ObsidianNote.read_from_path, hT, hp]

/-- C8, witness: the amended theorem applied to the sample failing
storage read. -/
theorem read_from_path_error_propagation_witness :
    ObsidianNote.read_from_path fsFail deserNull ()
      = Except.error (AnyhowError.mk ['b', 'o', 'o', 'm']) :=
  (read_from_path_error_propagation fsFail deserNull ()).1
    (AnyhowError.mk ['b', 'o', 'o', 'm']) rfl

/-- C9: parsing is idempotent through the stored raw text. A
successfully parsed note keeps the full original text in its
file_contents field, so parsing that field again, with the same path and
deserializer, succeeds and returns the very same note. -/
theorem parse_idempotent {P E : Type} (deser : List Char → Except E Yaml)
    (p : P) (T : List Char) (n : ObsidianNote P)
    (h : ObsidianNote.parse deser p T = Except.ok n) :
    ObsidianNote.parse deser p n.file_contents = Except.ok n := by
  rw [parse_contents_eq deser p T n h]
  exact h

/-- C9, witness: idempotence evaluated on a concrete two-letter text. -/
theorem parse_idempotent_witness :
    ObsidianNote.parse testDeser () ['y', 'o']
      = Except.ok (ObsidianNote.mk () ['y', 'o'] ['y', 'o'] none) :=
  parse_idempotent testDeser () ['y', 'o']
    (ObsidianNote.mk () ['y', 'o'] ['y', 'o'] none) rfl

/-- C10: the delimiter is matched as the bare three-character substring
anywhere in the text, not only as a marker standing on its own line: on
the concrete one-line input made of marker, a colon pair, marker, and a
word, with no newline anywhere, the splitter still detects a metadata
block and returns the inner text as the block and the final word as the
body. -/
theorem extract_frontmatter_substring_marker :
    extract_frontmatter
        ['-', '-', '-', 'a', ':', ' ', '1', '-', '-', '-', 'b', 'o', 'd', 'y']
      = (some ['a', ':', ' ', '1'], some ['b', 'o', 'd', 'y']) := by
  decide
